import Mathlib

/-!
Verification of the voice-ai-server conversation orchestration layer.

Shallow embedding of the resilience wrapper (circuit breaker + retry), the
OpenAI streaming wrapper, and the voice-session turn-taking/segmentation
logic, translated from the TypeScript sources:

* `src/utils/circuit-breaker.ts`   — `CircuitBreaker`, `DEFAULT_OPTIONS`
* `src/utils/retry.ts`             — `withRetry`, `calculateDelay`, `DEFAULT_OPTIONS`
* `src/openai.ts`                  — `streamLLMResponse`, `streamLLMWithTracking`
* `src/voice-session/index.ts`     — `VoiceSession.handleTranscript`,
                                     `processUserInput`, `addToConversationHistory`, `end`
* `src/voice-session/prompts.ts`   — `cleanResponse`
* `src/voice-session/end-handler.ts` — `handleEndSession`
* `src/voice-session/issue-handler.ts` — `sendPostCallMediaRequest`

JavaScript strings are modelled as Lean `String`s with hand-rolled,
kernel-computable versions of the string operations the sources use
(`trim`, `toLowerCase`, `includes`, `endsWith`, `replace(/…/g, '')`);
times are `Nat` milliseconds.
-/

/-! **Definitions** — the shallow embedding of the program. -/

/-- ASCII whitespace test used to model `String.prototype.trim` (the
concrete transcripts in this development only use plain spaces). -/
def jsWhitespace (c : Char) : Bool :=
  c == ' ' || c == '\t' || c == '\n' || c == '\r'

/-- Model of JS `s.trim()`: drop leading and trailing whitespace. -/
def jsTrim (s : String) : String :=
  ⟨((s.data.dropWhile jsWhitespace).reverse.dropWhile jsWhitespace).reverse⟩

/-- ASCII lower-casing of a character, modelling `toLowerCase` for the
ASCII error strings compared by the retry classifier. -/
def lowerChar (c : Char) : Char :=
  if c.val ≥ 65 && c.val ≤ 90 then Char.ofNat (c.toNat + 32) else c

/-- Model of JS `s.toLowerCase()`. -/
def jsToLower (s : String) : String := ⟨s.data.map lowerChar⟩

/-- Predicate `prefixOfChars pat l`: true when `pat` is a prefix of `l`. -/
def prefixOfChars : List Char → List Char → Bool
  | [], _ => true
  | _ :: _, [] => false
  | a :: as, b :: bs => a == b && prefixOfChars as bs

/-- Predicate `containsChars hay pat`: `pat` occurs as a contiguous substring of `hay`. -/
def containsChars (hay pat : List Char) : Bool :=
  match hay with
  | [] => prefixOfChars pat []
  | _ :: rest => prefixOfChars pat hay || containsChars rest pat

/-- Model of JS `s.includes(pat)`. -/
def strIncludes (s pat : String) : Bool := containsChars s.data pat.data

/-- Model of JS `s.endsWith(t)`. -/
def jsEndsWith (s t : String) : Bool :=
  prefixOfChars t.data.reverse s.data.reverse

/-- Scanning loop for `removeAllChars`, written with explicit fuel so it
computes by structural recursion; each step consumes at least one
character, so `fuel = hay.length` is always enough. -/
def removeAllCharsAux (pat : List Char) : Nat → List Char → List Char
  | _, [] => []
  | 0, l => l
  | fuel + 1, c :: rest =>
    if pat ≠ [] ∧ prefixOfChars pat (c :: rest) = true then
      removeAllCharsAux pat fuel ((c :: rest).drop pat.length)
    else c :: removeAllCharsAux pat fuel rest

/-- Model of JS `s.replace(/lit/g, '')` for a literal pattern `pat`:
scan left to right, removing each non-overlapping occurrence. -/
def removeAllChars (pat hay : List Char) : List Char :=
  removeAllCharsAux pat hay.length hay

/-- Scanning loop for `stripTenantChars`, with the same fuel discipline. -/
def stripTenantCharsAux : Nat → List Char → List Char
  | _, [] => []
  | 0, l => l
  | fuel + 1, c :: rest =>
    if c == '[' && prefixOfChars "TENANT:".data rest then
      let run := (rest.drop 7).takeWhile (fun d => d != ']')
      let rem := (rest.drop 7).dropWhile (fun d => d != ']')
      if run ≠ [] ∧ rem ≠ [] then stripTenantCharsAux fuel (rem.drop 1)
      else c :: stripTenantCharsAux fuel rest
    else c :: stripTenantCharsAux fuel rest

/-- Model of JS `s.replace(/\[TENANT:[^\]]+\]/g, '')`: at each `[` that is
followed by `TENANT:`, a greedy nonempty run of non-`]` characters and a
closing `]`, the whole tag is removed; otherwise scanning advances one
character. -/
def stripTenantChars (hay : List Char) : List Char :=
  stripTenantCharsAux hay.length hay

/-- Function `cleanResponse` from `src/voice-session/prompts.ts`: strip the five
control-tag forms and trim the result. -/
def cleanResponse (response : String) : String :=
  let s1 := removeAllChars "[CREATE_TICKET]".data response.data
  let s2 := removeAllChars "[CREATE_UNVERIFIED]".data s1
  let s3 := removeAllChars "[END_CALL]".data s2
  let s4 := stripTenantChars s3
  let s5 := removeAllChars "[VERIFIED]".data s4
  jsTrim ⟨s5⟩

/-- Message roles of the conversation history. -/
inductive Role
  | user
  | assistant
deriving DecidableEq, Repr

/-- Structure `ConversationMessage` from `src/voice-session/types.ts`. -/
structure ConversationMessage where
  role : Role
  content : String
deriving DecidableEq, Repr

/-- Constant `MAX_CONVERSATION_MESSAGES` from `src/voice-session/types.ts`. -/
def MAX_CONVERSATION_MESSAGES : Nat := 100

/-- Method `VoiceSession.addToConversationHistory`: push the message, then if the
length exceeds the cap keep only the last `MAX_CONVERSATION_MESSAGES`
entries (`slice(-MAX_CONVERSATION_MESSAGES)`). -/
def addToConversationHistory (history : List ConversationMessage)
    (role : Role) (content : String) : List ConversationMessage :=
  let h := history ++ [⟨role, content⟩]
  if MAX_CONVERSATION_MESSAGES < h.length then
    h.drop (h.length - MAX_CONVERSATION_MESSAGES)
  else h

/-- Type `CircuitState` from `circuit-breaker.ts`. -/
inductive CircuitState
  | CLOSED
  | OPEN
  | HALF_OPEN
deriving DecidableEq, Repr

/-- Structure `CircuitBreakerOptions` (numeric fields; the `name` and callback
fields only affect logging). -/
structure CircuitBreakerOptions where
  failureThreshold : Nat
  successThreshold : Nat
  timeout : Nat
deriving DecidableEq, Repr

/-- Constant `DEFAULT_OPTIONS` from `circuit-breaker.ts`:
`failureThreshold: 5, successThreshold: 2, timeout: 30000`. -/
def circuitBreakerDefaultOptions : CircuitBreakerOptions :=
  { failureThreshold := 5, successThreshold := 2, timeout := 30000 }

/-- The mutable fields of class `CircuitBreaker`. -/
structure CircuitBreaker where
  state : CircuitState
  failures : Nat
  successes : Nat
  lastFailureTime : Nat
deriving DecidableEq, Repr

/-- A freshly constructed `CircuitBreaker`
(`state = 'CLOSED'`, `failures = 0`, `successes = 0`, `lastFailureTime = 0`). -/
def CircuitBreaker.fresh : CircuitBreaker :=
  { state := .CLOSED, failures := 0, successes := 0, lastFailureTime := 0 }

/-- Method `shouldAttemptReset`: `Date.now() - lastFailureTime >= timeout`.
Time is a `Nat` millisecond clock; the truncated subtraction agrees with
the JS signed subtraction whenever `lastFailureTime ≤ now`, which holds on
every real trace (the field is only ever set to an earlier `now`). -/
def CircuitBreaker.shouldAttemptReset (o : CircuitBreakerOptions)
    (cb : CircuitBreaker) (now : Nat) : Bool :=
  o.timeout ≤ now - cb.lastFailureTime

/-- The first block of `execute`: when the circuit is `OPEN` and the
timeout has elapsed, transition to `HALF_OPEN` and zero the success count. -/
def CircuitBreaker.tryHalfOpen (o : CircuitBreakerOptions)
    (cb : CircuitBreaker) (now : Nat) : CircuitBreaker :=
  if cb.state = .OPEN ∧ cb.shouldAttemptReset o now then
    { cb with state := .HALF_OPEN, successes := 0 }
  else cb

/-- Method `onSuccess`: zero the failure count; in `HALF_OPEN` count the success
and close the circuit (zeroing successes) at `successThreshold`. -/
def CircuitBreaker.onSuccess (o : CircuitBreakerOptions)
    (cb : CircuitBreaker) : CircuitBreaker :=
  let cb := { cb with failures := 0 }
  if cb.state = .HALF_OPEN then
    let cb := { cb with successes := cb.successes + 1 }
    if o.successThreshold ≤ cb.successes then
      { cb with state := .CLOSED, successes := 0 }
    else cb
  else cb

/-- Method `onFailure`: count the failure and record its time; in `HALF_OPEN`
reopen immediately (zeroing successes), otherwise open once the failure
count reaches `failureThreshold`. -/
def CircuitBreaker.onFailure (o : CircuitBreakerOptions)
    (cb : CircuitBreaker) (now : Nat) : CircuitBreaker :=
  let cb := { cb with failures := cb.failures + 1, lastFailureTime := now }
  if cb.state = .HALF_OPEN then
    { cb with state := .OPEN, successes := 0 }
  else if o.failureThreshold ≤ cb.failures then
    { cb with state := .OPEN }
  else cb

/-- Outcome of one `execute` call: `circuitOpen` means the wrapped
function was never invoked (`CircuitOpenError` thrown); otherwise the
wrapped function ran and either succeeded or threw. -/
inductive ExecOutcome
  | circuitOpen
  | succeeded
  | failed
deriving DecidableEq, Repr

/-- Method `CircuitBreaker.execute`, with the wrapped promise's fate abstracted
to the boolean `fnSucceeds` (the wrapped function is pure I/O from the
breaker's point of view). -/
def CircuitBreaker.execute (o : CircuitBreakerOptions) (cb : CircuitBreaker)
    (now : Nat) (fnSucceeds : Bool) : ExecOutcome × CircuitBreaker :=
  let cb1 := cb.tryHalfOpen o now
  if cb1.state = .OPEN then (.circuitOpen, cb1)
  else if fnSucceeds then (.succeeded, cb1.onSuccess o)
  else (.failed, cb1.onFailure o now)

/-- Fold a sequence of `execute` calls, each given as the pair
(current clock value, wrapped-function fate). -/
def CircuitBreaker.runCalls (o : CircuitBreakerOptions)
    (cb : CircuitBreaker) : List (Nat × Bool) → CircuitBreaker
  | [] => cb
  | (now, r) :: rest => CircuitBreaker.runCalls o (cb.execute o now r).2 rest

/-- The observable identity of a thrown JS `Error`: the fields the retry
classifier reads (`error.message`, `error.name`, `error.code`). -/
structure JsError where
  name : String
  message : String
  code : String
deriving DecidableEq, Repr

/-- Structure `RetryOptions`. Delay-related fields are rationals so the backoff
arithmetic (`Math.pow`, `Math.random` jitter) is exact; `onRetry` is
logging only and omitted. -/
structure RetryOptions where
  maxRetries : Nat
  baseDelayMs : ℚ
  maxDelayMs : ℚ
  backoffMultiplier : ℚ
  retryableErrors : List String

/-- Constant `DEFAULT_OPTIONS` from `retry.ts`: `maxRetries: 3, baseDelayMs: 500,
maxDelayMs: 10000, backoffMultiplier: 2` and the standard list of
transient error strings. -/
def retryDefaultOptions : RetryOptions :=
  { maxRetries := 3
    baseDelayMs := 500
    maxDelayMs := 10000
    backoffMultiplier := 2
    retryableErrors :=
      ["ECONNRESET", "ETIMEDOUT", "ECONNREFUSED", "EPIPE", "EHOSTUNREACH",
       "EAI_AGAIN", "socket hang up", "network error", "timeout",
       "429", "502", "503", "504"] }

/-- The lower-cased haystack `` `${error.message} ${error.name} ${(error
as any).code || ''}` `` that `isRetryable` searches. -/
def errorString (e : JsError) : String :=
  jsToLower (e.message ++ " " ++ e.name ++ " " ++ e.code)

/-- Function `isRetryable` from `retry.ts`: some configured retryable marker occurs
(case-insensitively) in the error string. -/
def isRetryable (e : JsError) (retryableErrors : List String) : Bool :=
  retryableErrors.any (fun r => strIncludes (errorString e) (jsToLower r))

/-- Function `calculateDelay` from `retry.ts`, with `Math.random()` made explicit
as the parameter `jitterFrac ∈ [0, 1)`:
`min(base * multiplier ^ attempt * (1 + jitterFrac * 0.3), maxDelayMs)`. -/
def calculateDelay (opts : RetryOptions) (attempt : Nat) (jitterFrac : ℚ) : ℚ :=
  let exponentialDelay := opts.baseDelayMs * opts.backoffMultiplier ^ attempt
  let jitter := jitterFrac * (3 / 10) * exponentialDelay
  min (exponentialDelay + jitter) opts.maxDelayMs

/-- Result of one invocation of the wrapped function: either a value or a
thrown error. -/
inductive Outcome (α : Type)
  | ok (value : α)
  | err (e : JsError)
deriving DecidableEq, Repr

/-- What `withRetry` produces, observationally: the value returned or the
error finally thrown, how many times the wrapped function was invoked, and
every chunk the wrapped function fed to its caller-supplied `onToken`
callback across all invocations (in order). -/
structure RetryResult (α : Type) where
  result : Outcome α
  calls : Nat
  tokens : List String
deriving DecidableEq, Repr

/-- The `for (let attempt = 0; attempt <= maxRetries; attempt++)` loop of
`withRetry`. `fn i` is the behaviour of the wrapped function on its i-th
invocation: the token chunks it emits, then its outcome. `remaining`
counts the loop iterations still allowed (`maxRetries - attempt`); on the
last allowed attempt an error breaks out and is rethrown, otherwise a
non-retryable error is rethrown immediately and a retryable one leads to
the next attempt (after a backoff sleep, which has no observable effect
here). -/
def retryLoop {α : Type} (opts : RetryOptions) (fn : Nat → List String × Outcome α) :
    Nat → List String → Nat → RetryResult α
  | 0, acc, attempt =>
    match (fn attempt).2 with
    | .ok a => ⟨.ok a, attempt + 1, acc ++ (fn attempt).1⟩
    | .err e => ⟨.err e, attempt + 1, acc ++ (fn attempt).1⟩
  | r + 1, acc, attempt =>
    match (fn attempt).2 with
    | .ok a => ⟨.ok a, attempt + 1, acc ++ (fn attempt).1⟩
    | .err e =>
      if isRetryable e opts.retryableErrors then
        retryLoop opts fn r (acc ++ (fn attempt).1) (attempt + 1)
      else ⟨.err e, attempt + 1, acc ++ (fn attempt).1⟩

/-- Function `withRetry` from `retry.ts` (observable behaviour). -/
def withRetry {α : Type} (opts : RetryOptions)
    (fn : Nat → List String × Outcome α) : RetryResult α :=
  retryLoop opts fn opts.maxRetries [] 0

/-- Constant `STREAM_TIMEOUT_MS` from `openai.ts`. -/
def STREAM_TIMEOUT_MS : Nat := 30000

/-- Options of the `'openai'` circuit created in `openai.ts`:
`failureThreshold: 3, successThreshold: 2, timeout: 30000`. -/
def openaiCircuitOptions : CircuitBreakerOptions :=
  { failureThreshold := 3, successThreshold := 2, timeout := 30000 }

/-- The `retryableErrors` list `streamLLMResponse` passes to `withRetry`. -/
def openaiRetryableErrors : List String :=
  ["429", "500", "502", "503", "504", "timeout", "ECONNRESET"]

/-- The merged retry options of `streamLLMResponse`
(`{ ...DEFAULT_OPTIONS, maxRetries: 2, baseDelayMs: 500, retryableErrors }`). -/
def openaiRetryOptions : RetryOptions :=
  { retryDefaultOptions with
      maxRetries := 2
      baseDelayMs := 500
      retryableErrors := openaiRetryableErrors }

/-- The error thrown by `streamLLMWithTracking` when the 30-second
`AbortController` timer fires: `new Error('LLM response timeout')`
(a plain `Error`, so `name = "Error"` and no `code`). -/
def llmTimeoutError : JsError :=
  { name := "Error", message := "LLM response timeout", code := "" }

/-- How one stream attempt inside `streamLLMWithTracking` can end:
it runs to completion, the 30-second abort timer fires mid-stream, or the
provider throws some other error. -/
inductive StreamFate
  | completes
  | timesOut
  | fails (e : JsError)
deriving DecidableEq, Repr

/-- Observable behaviour of one `streamLLMWithTracking` invocation:
every token received before the end is forwarded to `onToken`; a timed-out
stream surfaces as the thrown `'LLM response timeout'` error, any other
provider error is rethrown, and a completed stream resolves. -/
def streamLLMWithTracking (tokens : List String) (fate : StreamFate) :
    List String × Outcome Unit :=
  match fate with
  | .completes => (tokens, .ok ())
  | .timesOut => (tokens, .err llmTimeoutError)
  | .fails e => (tokens, .err e)

/-- Function `streamLLMResponse` from `openai.ts`:
`openaiCircuit.execute(() => withRetry(() => streamLLMWithTracking(...)))`.
`attempts i` is the behaviour of the i-th stream attempt. When the
circuit fails fast the retrying body never runs (`none`); otherwise the
retry result is reported together with the breaker's bookkeeping. -/
def streamLLMResponse (cb : CircuitBreaker) (now : Nat)
    (attempts : Nat → List String × StreamFate) :
    ExecOutcome × CircuitBreaker × Option (RetryResult Unit) :=
  let cb1 := cb.tryHalfOpen openaiCircuitOptions now
  if cb1.state = .OPEN then (.circuitOpen, cb1, none)
  else
    let rr := withRetry openaiRetryOptions
      (fun i => streamLLMWithTracking (attempts i).1 (attempts i).2)
    match rr.result with
    | .ok _ => (.succeeded, cb1.onSuccess openaiCircuitOptions, some rr)
    | .err _ => (.failed, cb1.onFailure openaiCircuitOptions now, some rr)

/-- The `VoiceSession` state relevant to segmentation, turn-taking and the
pipeline run, plus the session's observable outputs. `silenceDeadline` is
the absolute time at which the pending 1.8-second silence timer fires
(`none` when no timer is pending); `activeResponse` is the in-flight
run's accumulated `fullResponse` (`none` when no run is in flight);
`ttsOutput` records every text chunk forwarded to the synthesis channel
by `onToken`; `dispatched` records every utterance handed to
`processUserInput`. The recorder, verification sub-state, ticket and
auto-end logic are orthogonal to these claims and are not tracked. -/
structure SessionState where
  conversationHistory : List ConversationMessage
  currentTranscript : String
  isProcessing : Bool
  silenceDeadline : Option Nat
  activeResponse : Option String
  ttsOutput : List String
  dispatched : List String
deriving DecidableEq, Repr

/-- A session as it stands when transcription begins. -/
def SessionState.initial : SessionState :=
  { conversationHistory := []
    currentTranscript := ""
    isProcessing := false
    silenceDeadline := none
    activeResponse := none
    ttsOutput := []
    dispatched := [] }

/-- Method `VoiceSession.handleTranscript(transcript, isFinal)` invoked at
absolute time `now`. A blank transcript returns immediately (before the
timers are touched). Otherwise the silence timer is (re)armed for
`now + 1800`, and a final fragment is folded into the accumulation buffer
(space-joined unless the buffer is empty or already ends with the
fragment); interim fragments are only logged. -/
def handleTranscript (s : SessionState) (now : Nat)
    (transcript : String) (isFinal : Bool) : SessionState :=
  if jsTrim transcript = "" then s
  else
    let ct :=
      if isFinal then
        if s.currentTranscript ≠ "" ∧ jsEndsWith s.currentTranscript transcript = false then
          s.currentTranscript ++ " " ++ transcript
        else transcript
      else s.currentTranscript
    { s with currentTranscript := ct, silenceDeadline := some (now + 1800) }

/-- The silence-timer callback (`setTimeout` body in `handleTranscript`)
together with the synchronous prefix of `processUserInput`: when the
buffer is non-empty and no utterance is being processed, the trimmed
buffer is dispatched — the processing flag is set, the buffer cleared,
the user turn appended to history, and a pipeline run started with an
empty `fullResponse`. (The verification branch is not taken for sessions
outside the `VERIFYING` sub-state.) -/
def fireSilenceTimer (s : SessionState) : SessionState :=
  match s.silenceDeadline with
  | none => s
  | some _ =>
    let s := { s with silenceDeadline := none }
    if s.currentTranscript ≠ "" ∧ s.isProcessing = false then
      let fullUtterance := jsTrim s.currentTranscript
      { s with currentTranscript := ""
               isProcessing := true
               conversationHistory :=
                 addToConversationHistory s.conversationHistory .user fullUtterance
               activeResponse := some ""
               dispatched := s.dispatched ++ [fullUtterance] }
    else s

/-- The externally visible events that drive a session. -/
inductive SessionEvent
  | transcript (now : Nat) (text : String) (isFinal : Bool)
  | silenceFire
  | llmToken (tok : String)
  | llmDone
deriving DecidableEq, Repr

/-- One step of the session. `llmToken` is the `onToken` callback of
`processUserInput`: append to `fullResponse` and forward the chunk to the
synthesis channel. `llmDone` is the `onDone` callback together with the
`finally` block: flush synthesis, append the cleaned reply to history as
the assistant turn, and clear the processing flag. -/
def sessionStep (s : SessionState) : SessionEvent → SessionState
  | .transcript now text isFinal => handleTranscript s now text isFinal
  | .silenceFire => fireSilenceTimer s
  | .llmToken tok =>
    match s.activeResponse with
    | some r => { s with activeResponse := some (r ++ tok), ttsOutput := s.ttsOutput ++ [tok] }
    | none => s
  | .llmDone =>
    match s.activeResponse with
    | some r =>
      { s with activeResponse := none
               isProcessing := false
               conversationHistory :=
                 addToConversationHistory s.conversationHistory .assistant (cleanResponse r) }
    | none => s

/-- Run a session over a list of events. -/
def sessionRun (s : SessionState) : List SessionEvent → SessionState
  | [] => s
  | e :: es => sessionRun (sessionStep s e) es

/-- Timed driver for the segmentation claims: play the given final
fragments (time, text) in order; before each fragment, if the pending
silence timer's deadline has already passed, it fires — and the pipeline
run it may dispatch completes before the fragment arrives (the regime the
spec's per-gap property describes); a trailing timer expiry is played at
the end. -/
def runFragments (s : SessionState) : List (Nat × String) → SessionState
  | [] => sessionRun s [.silenceFire, .llmDone]
  | (t, txt) :: rest =>
    let s' :=
      match s.silenceDeadline with
      | some d => if d ≤ t then sessionRun s [.silenceFire, .llmDone] else s
      | none => s
    runFragments (handleTranscript s' t txt true) rest

/-- Type `VerificationState` from `src/voice-session/types.ts`. -/
inductive VerificationState
  | PENDING
  | VERIFIED
  | VERIFYING
  | UNVERIFIED
deriving DecidableEq, Repr

/-- The data `handleEndSession` reads but never writes: the guards in
`end-handler.ts` consult the verification sub-state and flag, the history
length, the presence of the verifier/property context, of the recorder's
`callRecordId` (never cleared by `endRecording`) and of the audio
components object, and — inside `sendPostCallMediaRequest` — whether the
issue category is media-helpful and both phone numbers are present. -/
structure EndContext where
  verificationState : VerificationState
  createdUnverifiedRequest : Bool
  historyLength : Nat
  hasVerifier : Bool
  hasProperty : Bool
  hasCallRecord : Bool
  hasAudio : Bool
  mediaHelpfulIssue : Bool
  phonesPresent : Bool
deriving DecidableEq, Repr

/-- The resources `end()`/`handleEndSession` release: the audio component
members `cleanupAudio` closes and nulls, and the three timers. -/
structure EndResources where
  deepgramOpen : Bool
  ttsOpen : Bool
  autoEndTimerPending : Bool
  silenceTimerPending : Bool
  durationTimersPending : Bool
deriving DecidableEq, Repr

/-- Cumulative observable end-of-call side effects: unverified-request DB
inserts, post-call SMS sends, `endRecording` DB updates, cost-tracker
entries, and closes of each audio component. -/
structure EndEffects where
  unverifiedRequestsCreated : Nat
  postCallSmsSent : Nat
  recordingEndUpdates : Nat
  costTrackings : Nat
  deepgramCloses : Nat
  ttsCloses : Nat
deriving DecidableEq, Repr

/-- Guard of the unverified-request block in `handleEndSession`, combined
with the identical re-check inside `createUnverifiedRequest`; note that
neither of them ever sets `createdUnverifiedRequest` on this path. -/
def unverifiedRequestGuard (ctx : EndContext) : Bool :=
  (ctx.verificationState = .UNVERIFIED || ctx.verificationState = .VERIFYING) &&
    !ctx.createdUnverifiedRequest && ctx.hasVerifier && ctx.hasProperty

/-- Guard of the post-call SMS: `conversationHistory.length > 2` in
`handleEndSession`, and inside `sendPostCallMediaRequest` a media-helpful
issue category and both phone numbers. -/
def postCallSmsGuard (ctx : EndContext) : Bool :=
  decide (2 < ctx.historyLength) && ctx.mediaHelpfulIssue && ctx.phonesPresent

/-- Function `handleEndSession` from `end-handler.ts`, in source order: (1) create
an unverified request when the caller was never verified; (2) send the
post-call media-request SMS when there was conversation; (3) run the
`endRecording` DB update when a call record exists; (4) track Twilio
voice cost plus, when audio exists, ElevenLabs and Deepgram costs;
(5) `cleanupAudio`: close and null out each still-open audio component;
(6) clear the silence timer and both duration timers. The guards read
only `ctx`, which no step writes, matching the source where the
corresponding session fields are never mutated by the end path. -/
def handleEndSession (ctx : EndContext) (res : EndResources) (eff : EndEffects) :
    EndResources × EndEffects :=
  let eff :=
    if unverifiedRequestGuard ctx then
      { eff with unverifiedRequestsCreated := eff.unverifiedRequestsCreated + 1 }
    else eff
  let eff :=
    if postCallSmsGuard ctx then
      { eff with postCallSmsSent := eff.postCallSmsSent + 1 }
    else eff
  let eff :=
    if ctx.hasCallRecord then
      { eff with recordingEndUpdates := eff.recordingEndUpdates + 1 }
    else eff
  let eff := { eff with costTrackings := eff.costTrackings + 1 + (if ctx.hasAudio then 2 else 0) }
  let cleaned :=
    if ctx.hasAudio then
      let r1 :=
        if res.deepgramOpen then
          ({ res with deepgramOpen := false },
           { eff with deepgramCloses := eff.deepgramCloses + 1 })
        else (res, eff)
      if r1.1.ttsOpen then
        ({ r1.1 with ttsOpen := false },
         { r1.2 with ttsCloses := r1.2.ttsCloses + 1 })
      else r1
    else (res, eff)
  ({ cleaned.1 with silenceTimerPending := false, durationTimersPending := false },
   cleaned.2)

/-- Method `VoiceSession.end`: clear (and null) the auto-end timer, then
`handleEndSession`. There is no completed/in-flight guard. -/
def endSession (ctx : EndContext) (res : EndResources) (eff : EndEffects) :
    EndResources × EndEffects :=
  handleEndSession ctx { res with autoEndTimerPending := false } eff

/-! **Theorems** — the claims settled against the embedding. -/

/-- One failing call in `CLOSED` state below the threshold: stays closed,
counts the failure, records its time. -/
lemma execute_closed_fail_lt (o : CircuitBreakerOptions) (f su l now : Nat)
    (h : f + 1 < o.failureThreshold) :
    CircuitBreaker.execute o ⟨.CLOSED, f, su, l⟩ now false =
      (.failed, ⟨.CLOSED, f + 1, su, now⟩) := by
  have hc : ¬ (o.failureThreshold ≤ f + 1) := by omega
  simp [CircuitBreaker.execute, CircuitBreaker.tryHalfOpen, CircuitBreaker.onFailure, hc]

/-- One failing call in `CLOSED` state reaching the threshold: opens. -/
lemma execute_closed_fail_ge (o : CircuitBreakerOptions) (f su l now : Nat)
    (h : o.failureThreshold ≤ f + 1) :
    CircuitBreaker.execute o ⟨.CLOSED, f, su, l⟩ now false =
      (.failed, ⟨.OPEN, f + 1, su, now⟩) := by
  simp [CircuitBreaker.execute, CircuitBreaker.tryHalfOpen, CircuitBreaker.onFailure, h]

/-- A call while `OPEN` and strictly inside the timeout window fails fast:
the wrapped function is not invoked and the breaker is unchanged. -/
lemma execute_open_before (o : CircuitBreakerOptions) (f su l now : Nat) (r : Bool)
    (h : now - l < o.timeout) :
    CircuitBreaker.execute o ⟨.OPEN, f, su, l⟩ now r =
      (.circuitOpen, ⟨.OPEN, f, su, l⟩) := by
  have hc : ¬ (o.timeout ≤ now - l) := by omega
  simp [CircuitBreaker.execute, CircuitBreaker.tryHalfOpen,
    CircuitBreaker.shouldAttemptReset, hc]

/-- The half-open transition: while `OPEN`, once the timeout has elapsed
since the recorded failure time, the breaker moves to `HALF_OPEN` with
`successes = 0` before the wrapped function is consulted. -/
lemma tryHalfOpen_open_after (o : CircuitBreakerOptions) (f su l now : Nat)
    (h : o.timeout ≤ now - l) :
    CircuitBreaker.tryHalfOpen o ⟨.OPEN, f, su, l⟩ now = ⟨.HALF_OPEN, f, 0, l⟩ := by
  simp [CircuitBreaker.tryHalfOpen, CircuitBreaker.shouldAttemptReset, h]

/-- While `OPEN` with the timeout elapsed, the wrapped function IS invoked
(the outcome reflects its fate, never `circuitOpen`). -/
lemma execute_open_after_invokes (o : CircuitBreakerOptions) (f su l now : Nat) (r : Bool)
    (h : o.timeout ≤ now - l) :
    (CircuitBreaker.execute o ⟨.OPEN, f, su, l⟩ now r).1 =
      (if r then .succeeded else .failed) := by
  simp only [CircuitBreaker.execute, tryHalfOpen_open_after o f su l now h]
  cases r <;> simp

/-- A successful call in `HALF_OPEN` below the success threshold. -/
lemma execute_halfopen_success_lt (o : CircuitBreakerOptions) (f su l now : Nat)
    (h : su + 1 < o.successThreshold) :
    CircuitBreaker.execute o ⟨.HALF_OPEN, f, su, l⟩ now true =
      (.succeeded, ⟨.HALF_OPEN, 0, su + 1, l⟩) := by
  have hc : ¬ (o.successThreshold ≤ su + 1) := by omega
  simp [CircuitBreaker.execute, CircuitBreaker.tryHalfOpen, CircuitBreaker.onSuccess, hc]

/-- A successful call in `HALF_OPEN` reaching the success threshold:
closes and zeroes both counters. -/
lemma execute_halfopen_success_ge (o : CircuitBreakerOptions) (f su l now : Nat)
    (h : o.successThreshold ≤ su + 1) :
    CircuitBreaker.execute o ⟨.HALF_OPEN, f, su, l⟩ now true =
      (.succeeded, ⟨.CLOSED, 0, 0, l⟩) := by
  simp [CircuitBreaker.execute, CircuitBreaker.tryHalfOpen, CircuitBreaker.onSuccess, h]

/-- A failing call in `HALF_OPEN`: reopens immediately, resets the failure
timestamp to `now` and zeroes the success count. -/
lemma execute_halfopen_fail (o : CircuitBreakerOptions) (f su l now : Nat) :
    CircuitBreaker.execute o ⟨.HALF_OPEN, f, su, l⟩ now false =
      (.failed, ⟨.OPEN, f + 1, 0, now⟩) := by
  simp [CircuitBreaker.execute, CircuitBreaker.tryHalfOpen, CircuitBreaker.onFailure]

/-- A consecutive failure streak in `CLOSED` state that stays strictly
below the threshold leaves the circuit `CLOSED`, counting every failure. -/
lemma runCalls_closed_fail_streak (o : CircuitBreakerOptions) :
    ∀ (ts : List Nat) (f su l : Nat), f + ts.length < o.failureThreshold →
      (CircuitBreaker.runCalls o ⟨.CLOSED, f, su, l⟩
        (ts.map (fun t => (t, false)))).state = .CLOSED ∧
      (CircuitBreaker.runCalls o ⟨.CLOSED, f, su, l⟩
        (ts.map (fun t => (t, false)))).failures = f + ts.length := by
  intro ts
  induction ts with
  | nil => intro f su l _; simp [CircuitBreaker.runCalls]
  | cons t ts ih =>
    intro f su l hlt
    simp only [List.length_cons] at hlt
    have hstep := execute_closed_fail_lt o f su l t (by omega)
    simp only [List.map_cons, CircuitBreaker.runCalls, hstep]
    have := ih (f + 1) su t (by omega)
    simpa [Nat.add_assoc, Nat.add_comm 1 ts.length] using this

/-- A consecutive failure streak in `CLOSED` state that exactly reaches
the threshold opens the circuit. -/
lemma runCalls_closed_fail_opens (o : CircuitBreakerOptions) :
    ∀ (ts : List Nat) (f su l : Nat), ts ≠ [] →
      f + ts.length = o.failureThreshold →
      (CircuitBreaker.runCalls o ⟨.CLOSED, f, su, l⟩
        (ts.map (fun t => (t, false)))).state = .OPEN := by
  intro ts
  induction ts with
  | nil => intro _ _ _ h; exact absurd rfl h
  | cons t ts ih =>
    intro f su l _ hlen
    simp only [List.length_cons] at hlen
    by_cases hemp : ts = []
    · subst hemp
      simp only [List.length_nil] at hlen
      have hstep := execute_closed_fail_ge o f su l t (by omega)
      simp [CircuitBreaker.runCalls, hstep]
    · have hpos : 0 < ts.length := List.length_pos.mpr hemp
      have hstep := execute_closed_fail_lt o f su l t (by omega)
      simp only [List.map_cons, CircuitBreaker.runCalls, hstep]
      exact ih (f + 1) su t hemp (by omega)

/-- A consecutive success streak in `HALF_OPEN` that exactly reaches
`successThreshold` closes the circuit and zeroes both counters, leaving
the failure timestamp untouched. -/
lemma runCalls_halfopen_success_closes (o : CircuitBreakerOptions) :
    ∀ (ts : List Nat) (f su l : Nat), ts ≠ [] →
      su + ts.length = o.successThreshold →
      CircuitBreaker.runCalls o ⟨.HALF_OPEN, f, su, l⟩
        (ts.map (fun t => (t, true))) = ⟨.CLOSED, 0, 0, l⟩ := by
  intro ts
  induction ts with
  | nil => intro _ _ _ h; exact absurd rfl h
  | cons t ts ih =>
    intro f su l _ hlen
    simp only [List.length_cons] at hlen
    by_cases hemp : ts = []
    · subst hemp
      simp only [List.length_nil] at hlen
      have hstep := execute_halfopen_success_ge o f su l t (by omega)
      simp [CircuitBreaker.runCalls, hstep]
    · have hpos : 0 < ts.length := List.length_pos.mpr hemp
      have hstep := execute_halfopen_success_lt o f su l t (by omega)
      simp only [List.map_cons, CircuitBreaker.runCalls, hstep]
      exact ih 0 (su + 1) l hemp (by omega)

/-- C2: circuit breaker lifecycle, exactly as the source implements it.
(1) exactly `failureThreshold` consecutive failures from a fresh breaker
open the circuit, and (2) fewer leave it `CLOSED`; (3) an `execute` while
`OPEN` strictly before `timeout` ms have elapsed since the recorded
failure timestamp throws `CircuitOpenError` without invoking the wrapped
function and leaves the breaker unchanged; (4) once `timeout` ms have
elapsed the breaker transitions to `HALF_OPEN` (zeroing successes) and
then invokes the wrapped function; (5) `successThreshold` consecutive
successes in `HALF_OPEN` close the circuit and reset both counters;
(6) a single failure in `HALF_OPEN` reopens the circuit, resets the
failure timestamp to the current time and zeroes the success count. -/
theorem circuit_breaker_lifecycle (o : CircuitBreakerOptions)
    (hft : 0 < o.failureThreshold) (hsu : 0 < o.successThreshold) :
    (∀ ts : List Nat, ts.length = o.failureThreshold →
      (CircuitBreaker.runCalls o .fresh (ts.map (fun t => (t, false)))).state = .OPEN) ∧
    (∀ ts : List Nat, ts.length < o.failureThreshold →
      (CircuitBreaker.runCalls o .fresh (ts.map (fun t => (t, false)))).state = .CLOSED) ∧
    (∀ f su l now : Nat, ∀ r : Bool, now - l < o.timeout →
      CircuitBreaker.execute o ⟨.OPEN, f, su, l⟩ now r = (.circuitOpen, ⟨.OPEN, f, su, l⟩)) ∧
    (∀ f su l now : Nat, ∀ r : Bool, o.timeout ≤ now - l →
      CircuitBreaker.tryHalfOpen o ⟨.OPEN, f, su, l⟩ now = ⟨.HALF_OPEN, f, 0, l⟩ ∧
      (CircuitBreaker.execute o ⟨.OPEN, f, su, l⟩ now r).1 =
        (if r then .succeeded else .failed)) ∧
    (∀ (ts : List Nat) (f l : Nat), ts.length = o.successThreshold →
      CircuitBreaker.runCalls o ⟨.HALF_OPEN, f, 0, l⟩ (ts.map (fun t => (t, true))) =
        ⟨.CLOSED, 0, 0, l⟩) ∧
    (∀ f su l now : Nat,
      CircuitBreaker.execute o ⟨.HALF_OPEN, f, su, l⟩ now false =
        (.failed, ⟨.OPEN, f + 1, 0, now⟩)) := by
  refine ⟨?_, ?_, ?_, ?_, ?_, ?_⟩
  · intro ts hlen
    have hne : ts ≠ [] := by
      intro h; subst h; simp at hlen; omega
    exact runCalls_closed_fail_opens o ts 0 0 0 hne (by simpa using hlen)
  · intro ts hlen
    exact (runCalls_closed_fail_streak o ts 0 0 0 (by simpa using hlen)).1
  · intro f su l now r h
    exact execute_open_before o f su l now r h
  · intro f su l now r h
    exact ⟨tryHalfOpen_open_after o f su l now h,
      execute_open_after_invokes o f su l now r h⟩
  · intro ts f l hlen
    have hne : ts ≠ [] := by
      intro h; subst h; simp at hlen; omega
    exact runCalls_halfopen_success_closes o ts f 0 l hne (by simpa using hlen)
  · intro f su l now
    exact execute_halfopen_fail o f su l now

/-- If the current invocation succeeds, the loop stops at once. -/
lemma retryLoop_ok {α : Type} (opts : RetryOptions) (fn : Nat → List String × Outcome α)
    (remaining : Nat) (acc : List String) (attempt : Nat) (a : α)
    (h : (fn attempt).2 = .ok a) :
    retryLoop opts fn remaining acc attempt = ⟨.ok a, attempt + 1, acc ++ (fn attempt).1⟩ := by
  cases remaining <;> simp [retryLoop, h]

/-- If the current invocation throws a non-retryable error, it propagates
at once. -/
lemma retryLoop_err_nonretryable {α : Type} (opts : RetryOptions)
    (fn : Nat → List String × Outcome α)
    (remaining : Nat) (acc : List String) (attempt : Nat) (e : JsError)
    (h : (fn attempt).2 = .err e) (hr : isRetryable e opts.retryableErrors = false) :
    retryLoop opts fn remaining acc attempt = ⟨.err e, attempt + 1, acc ++ (fn attempt).1⟩ := by
  cases remaining <;> simp [retryLoop, h, hr]

/-- Exactly `k` retryable failures followed by a success: the loop returns the
success after exactly `k + 1` invocations (provided `k` does not exceed
the remaining budget). -/
lemma retryLoop_ok_after {α : Type} (opts : RetryOptions)
    (fn : Nat → List String × Outcome α) (a : α) :
    ∀ (k remaining : Nat) (acc : List String) (attempt : Nat), k ≤ remaining →
      (∀ i, i < k → ∃ e, (fn (attempt + i)).2 = .err e ∧
        isRetryable e opts.retryableErrors = true) →
      (fn (attempt + k)).2 = .ok a →
      (retryLoop opts fn remaining acc attempt).result = .ok a ∧
      (retryLoop opts fn remaining acc attempt).calls = attempt + k + 1 := by
  intro k
  induction k with
  | zero =>
    intro remaining acc attempt _ _ hok
    rw [retryLoop_ok opts fn remaining acc attempt a (by simpa using hok)]
    simp
  | succ k ih =>
    intro remaining acc attempt hle herrs hok
    obtain ⟨r, rfl⟩ : ∃ r, remaining = r + 1 := ⟨remaining - 1, by omega⟩
    obtain ⟨e, he, hre⟩ := herrs 0 (by omega)
    simp only [Nat.add_zero] at he
    simp only [retryLoop, he, hre, if_true]
    have := ih r (acc ++ (fn attempt).1) (attempt + 1) (by omega)
      (fun i hi => by
        obtain ⟨e', he', hre'⟩ := herrs (i + 1) (by omega)
        exact ⟨e', by rw [show attempt + 1 + i = attempt + (i + 1) by omega]; exact he', hre'⟩)
      (by rw [show attempt + 1 + k = attempt + (k + 1) by omega]; exact hok)
    refine ⟨this.1, ?_⟩
    rw [this.2]; omega

/-- Retryable failures on every allowed attempt: the final attempt's error
propagates after `remaining + 1` invocations. -/
lemma retryLoop_all_err {α : Type} (opts : RetryOptions)
    (fn : Nat → List String × Outcome α) :
    ∀ (remaining : Nat) (acc : List String) (attempt : Nat),
      (∀ i, i ≤ remaining → ∃ e, (fn (attempt + i)).2 = .err e ∧
        isRetryable e opts.retryableErrors = true) →
      ∃ e, (fn (attempt + remaining)).2 = .err e ∧
        (retryLoop opts fn remaining acc attempt).result = .err e ∧
        (retryLoop opts fn remaining acc attempt).calls = attempt + remaining + 1 := by
  intro remaining
  induction remaining with
  | zero =>
    intro acc attempt herrs
    obtain ⟨e, he, _⟩ := herrs 0 (by omega)
    simp only [Nat.add_zero] at he
    exact ⟨e, by simpa using he, by simp [retryLoop, he], by simp [retryLoop, he]⟩
  | succ r ih =>
    intro acc attempt herrs
    obtain ⟨e, he, hre⟩ := herrs 0 (by omega)
    simp only [Nat.add_zero] at he
    simp only [retryLoop, he, hre, if_true]
    obtain ⟨e', he', hr', hc'⟩ := ih (acc ++ (fn attempt).1) (attempt + 1)
      (fun i hi => by
        obtain ⟨e'', he'', hre''⟩ := herrs (i + 1) (by omega)
        exact ⟨e'', by rw [show attempt + 1 + i = attempt + (i + 1) by omega]; exact he'', hre''⟩)
    refine ⟨e', ?_, hr', by rw [hc']; omega⟩
    rw [show attempt + (r + 1) = attempt + 1 + r by omega]; exact he'

/-- C3: observable behaviour of `withRetry` and monotonicity of the
computed backoff delays. (1) A first invocation that throws a
non-retryable error propagates it with the function invoked exactly once;
(2) `k ≤ maxRetries` retryable failures followed by a success return the
success with `k + 1 ≤ maxRetries + 1` invocations; (3) retryable failures
on all `maxRetries + 1` invocations propagate the last error; (4) for any
fixed jitter fraction `0 ≤ j` (hence also in expectation over the uniform
jitter), the computed delay `min(base·multiplier^attempt·(1 + 0.3·j),
maxDelayMs)` is non-decreasing in the attempt index whenever
`multiplier ≥ 1` and `base ≥ 0`. -/
theorem with_retry_behaviour (opts : RetryOptions) :
    (∀ (α : Type) (fn : Nat → List String × Outcome α) (e : JsError),
      (fn 0).2 = .err e → isRetryable e opts.retryableErrors = false →
      (withRetry opts fn).result = .err e ∧ (withRetry opts fn).calls = 1) ∧
    (∀ (α : Type) (fn : Nat → List String × Outcome α) (k : Nat) (a : α),
      k ≤ opts.maxRetries →
      (∀ i, i < k → ∃ e, (fn i).2 = .err e ∧ isRetryable e opts.retryableErrors = true) →
      (fn k).2 = .ok a →
      (withRetry opts fn).result = .ok a ∧ (withRetry opts fn).calls = k + 1 ∧
        k + 1 ≤ opts.maxRetries + 1) ∧
    (∀ (α : Type) (fn : Nat → List String × Outcome α),
      (∀ i, i ≤ opts.maxRetries → ∃ e, (fn i).2 = .err e ∧
        isRetryable e opts.retryableErrors = true) →
      ∃ e, (fn opts.maxRetries).2 = .err e ∧ (withRetry opts fn).result = .err e ∧
        (withRetry opts fn).calls = opts.maxRetries + 1) ∧
    (∀ (attempt : Nat) (j : ℚ), 0 ≤ j → 1 ≤ opts.backoffMultiplier →
      0 ≤ opts.baseDelayMs →
      calculateDelay opts attempt j ≤ calculateDelay opts (attempt + 1) j) := by
  refine ⟨?_, ?_, ?_, ?_⟩
  · intro α fn e he hre
    rw [withRetry, retryLoop_err_nonretryable opts fn opts.maxRetries [] 0 e he hre]
    simp
  · intro α fn k a hk herrs hok
    have := retryLoop_ok_after opts fn a k opts.maxRetries [] 0 hk
      (fun i hi => by simpa using herrs i hi) (by simpa using hok)
    refine ⟨this.1, ?_, by omega⟩
    rw [withRetry, this.2]; omega
  · intro α fn herrs
    obtain ⟨e, he, hr, hc⟩ := retryLoop_all_err opts fn opts.maxRetries [] 0
      (fun i hi => by simpa using herrs i hi)
    refine ⟨e, by simpa using he, hr, ?_⟩
    rw [withRetry, hc]; omega
  · intro attempt j hj hm hb
    unfold calculateDelay
    have hpow : opts.backoffMultiplier ^ attempt ≤ opts.backoffMultiplier ^ (attempt + 1) :=
      pow_le_pow_right₀ hm (Nat.le_succ attempt)
    have hE : opts.baseDelayMs * opts.backoffMultiplier ^ attempt ≤
        opts.baseDelayMs * opts.backoffMultiplier ^ (attempt + 1) :=
      mul_le_mul_of_nonneg_left hpow hb
    have hjit : j * (3 / 10) * (opts.baseDelayMs * opts.backoffMultiplier ^ attempt) ≤
        j * (3 / 10) * (opts.baseDelayMs * opts.backoffMultiplier ^ (attempt + 1)) :=
      mul_le_mul_of_nonneg_left hE (by positivity)
    exact min_le_min (add_le_add hE hjit) le_rfl

/-- C2 witness: with the OpenAI circuit options (threshold 3), three
consecutive failures from a fresh breaker leave it `OPEN`. -/
theorem circuit_breaker_lifecycle_witness :
    (CircuitBreaker.runCalls openaiCircuitOptions .fresh
      [(0, false), (10, false), (20, false)]).state = .OPEN := by
  have h := (circuit_breaker_lifecycle openaiCircuitOptions (by decide) (by decide)).1
    [0, 10, 20] (by decide)
  simpa using h

/-- C3 witness: with the default retry options, a function that throws a
non-retryable error is invoked exactly once and the error propagates. -/
theorem with_retry_behaviour_witness :
    (withRetry retryDefaultOptions
      (fun _ => ([], (Outcome.err ⟨"Error", "invalid api key", ""⟩ : Outcome Unit)))).result =
        Outcome.err ⟨"Error", "invalid api key", ""⟩ ∧
    (withRetry retryDefaultOptions
      (fun _ => ([], (Outcome.err ⟨"Error", "invalid api key", ""⟩ : Outcome Unit)))).calls = 1 :=
  (with_retry_behaviour retryDefaultOptions).1 Unit
    (fun _ => ([], (Outcome.err ⟨"Error", "invalid api key", ""⟩ : Outcome Unit)))
    ⟨"Error", "invalid api key", ""⟩ rfl (by decide)

/-- C6: a generation stream that exceeds the 30-second wall-clock timeout
is a failure, not a cancellation. (1) The aborted stream surfaces as the
thrown `'LLM response timeout'` error; (2) that error is classified
retryable by the configured retry wrapper; (3) through
`streamLLMResponse`, attempts that all time out exhaust the 3 allowed
invocations, propagate the timeout error (never a silent/cancelled
result), and count as one failure on the OpenAI circuit breaker. -/
theorem generation_timeout_is_retryable_failure :
    (∀ tokens, streamLLMWithTracking tokens .timesOut = (tokens, .err llmTimeoutError)) ∧
    isRetryable llmTimeoutError openaiRetryableErrors = true ∧
    (∀ (f su l now : Nat) (attempts : Nat → List String × StreamFate),
      (∀ i, (attempts i).2 = .timesOut) →
      f + 1 < openaiCircuitOptions.failureThreshold →
      streamLLMResponse ⟨.CLOSED, f, su, l⟩ now attempts =
        (.failed, ⟨.CLOSED, f + 1, su, now⟩,
          some ⟨.err llmTimeoutError, 3,
            (attempts 0).1 ++ (attempts 1).1 ++ (attempts 2).1⟩)) := by
  refine ⟨fun tokens => rfl, by decide, ?_⟩
  intro f su l now attempts hto hlt
  have hret : isRetryable llmTimeoutError openaiRetryableErrors = true := by decide
  have hc : ¬ (openaiCircuitOptions.failureThreshold ≤ f + 1) := by omega
  simp [streamLLMResponse, CircuitBreaker.tryHalfOpen, CircuitBreaker.onFailure,
    withRetry, retryLoop, streamLLMWithTracking, hto, hret, hc, openaiRetryOptions]

/-- C6 witness: a fresh breaker, every attempt timing out with no tokens. -/
theorem generation_timeout_is_retryable_failure_witness :
    streamLLMResponse ⟨.CLOSED, 0, 0, 0⟩ 5 (fun _ => ([], .timesOut)) =
      (.failed, ⟨.CLOSED, 1, 0, 5⟩, some ⟨.err llmTimeoutError, 3, []⟩) := by
  have h := generation_timeout_is_retryable_failure.2.2 0 0 0 5
    (fun _ => ([], .timesOut)) (fun _ => rfl) (by decide)
  simpa using h

/-- C10: a failed attempt's partial output is not rolled back before a
retry. Within a single `streamLLMResponse` call, if the first stream
attempt emits some tokens through `onToken` and then fails with a
retryable error while the second attempt succeeds, the caller's `onToken`
callback receives the first attempt's tokens followed by the second
attempt's tokens — output from more than one attempt. -/
theorem retry_replays_tokens_to_onToken
    (fn : Nat → List String × Outcome Unit) (toks0 toks1 : List String) (e : JsError)
    (h0 : fn 0 = (toks0, .err e))
    (hre : isRetryable e openaiRetryOptions.retryableErrors = true)
    (h1 : fn 1 = (toks1, .ok ())) :
    withRetry openaiRetryOptions fn = ⟨.ok (), 2, toks0 ++ toks1⟩ := by
  have hmax : openaiRetryOptions.maxRetries = 2 := rfl
  simp [withRetry, hmax, retryLoop, h0, h1, hre]

/-- C10 witness: a first attempt emitting one token then timing out, a
second attempt emitting the full reply: both attempts' tokens reach
`onToken`. -/
theorem retry_replays_tokens_to_onToken_witness :
    withRetry openaiRetryOptions
      (fun n => if n = 0 then (["Hel"], Outcome.err llmTimeoutError)
                else (["Hello there"], Outcome.ok ())) =
      ⟨Outcome.ok (), 2, ["Hel", "Hello there"]⟩ := by
  have h := retry_replays_tokens_to_onToken
    (fun n => if n = 0 then (["Hel"], Outcome.err llmTimeoutError)
              else (["Hello there"], Outcome.ok ()))
    ["Hel"] ["Hello there"] llmTimeoutError rfl (by decide) rfl
  simpa using h

/-- C9 counterexample: the defaults used when a caller supplies no
overrides are NOT `failureThreshold = 3` and `maxRetries = 2`: the
circuit-breaker `DEFAULT_OPTIONS.failureThreshold` is 5 and the retry
`DEFAULT_OPTIONS.maxRetries` is 3. -/
theorem resilience_defaults_counterexample :
    circuitBreakerDefaultOptions.failureThreshold = 5 ∧
    retryDefaultOptions.maxRetries = 3 ∧
    ¬ (circuitBreakerDefaultOptions.failureThreshold = 3 ∧
       retryDefaultOptions.maxRetries = 2) := by
  refine ⟨rfl, rfl, ?_⟩
  intro h
  exact absurd h.1 (by decide)

/-- C9 amended: the no-override defaults are `failureThreshold = 5`,
`successThreshold = 2`, circuit `timeout = 30000` ms for the circuit
breaker, and `maxRetries = 3`, `baseDelayMs = 500`, `maxDelayMs = 10000`,
`backoffMultiplier = 2` for the retry wrapper. (The values 3 and 2 named
by the spec are the explicit per-call overrides used for the OpenAI
dependency, captured in `openaiCircuitOptions` and `openaiRetryOptions`.) -/
theorem resilience_defaults :
    circuitBreakerDefaultOptions.failureThreshold = 5 ∧
    circuitBreakerDefaultOptions.successThreshold = 2 ∧
    circuitBreakerDefaultOptions.timeout = 30000 ∧
    retryDefaultOptions.maxRetries = 3 ∧
    retryDefaultOptions.baseDelayMs = 500 ∧
    retryDefaultOptions.maxDelayMs = 10000 ∧
    retryDefaultOptions.backoffMultiplier = 2 ∧
    openaiCircuitOptions.failureThreshold = 3 ∧
    openaiRetryOptions.maxRetries = 2 := by
  refine ⟨rfl, rfl, rfl, rfl, ?_, ?_, ?_, rfl, rfl⟩ <;>
    norm_num [retryDefaultOptions]

/-- C5: the conversation history is FIFO-capped at 100 entries. With a
full history of `MAX_CONVERSATION_MESSAGES = 100` messages, an append
keeps exactly 100 entries, dropping the oldest: the result is
`tail ++ [new]`, whose first element is the original second message. In
general every append produces `min (n+1) 100` entries and a suffix of
`history ++ [new]` (oldest evicted first, retained order preserved). -/
theorem history_cap (h : List ConversationMessage) (role : Role) (c : String) :
    (h.length = MAX_CONVERSATION_MESSAGES →
      addToConversationHistory h role c = h.tail ++ [⟨role, c⟩] ∧
      (addToConversationHistory h role c).length = MAX_CONVERSATION_MESSAGES ∧
      (addToConversationHistory h role c).head? = h.tail.head?) ∧
    (addToConversationHistory h role c).length =
      min (h.length + 1) MAX_CONVERSATION_MESSAGES ∧
    (addToConversationHistory h role c) <:+ (h ++ [⟨role, c⟩]) := by
  refine ⟨?_, ?_, ?_⟩
  · intro hlen
    obtain ⟨a, t, rfl⟩ : ∃ a t, h = a :: t := by
      cases h with
      | nil => simp [MAX_CONVERSATION_MESSAGES] at hlen
      | cons a t => exact ⟨a, t, rfl⟩
    have hlen' : t.length = 99 := by
      simpa [MAX_CONVERSATION_MESSAGES] using hlen
    have heq : addToConversationHistory (a :: t) role c =
        t ++ [{ role := role, content := c }] := by
      simp [addToConversationHistory, MAX_CONVERSATION_MESSAGES, hlen']
    refine ⟨heq, ?_, ?_⟩
    · rw [heq]; simp [hlen', MAX_CONVERSATION_MESSAGES]
    · rw [heq]
      cases t with
      | nil => simp at hlen'
      | cons b t2 => simp
  · by_cases hc2 : MAX_CONVERSATION_MESSAGES < h.length + 1
    · have hcond : MAX_CONVERSATION_MESSAGES <
          (h ++ [({ role := role, content := c } : ConversationMessage)]).length := by
        simpa using hc2
      have hlen1 : (addToConversationHistory h role c).length = MAX_CONVERSATION_MESSAGES := by
        simp only [addToConversationHistory, if_pos hcond, List.length_drop]
        simp only [List.length_append, List.length_cons, List.length_nil]
        omega
      rw [hlen1]; omega
    · have hcond : ¬ MAX_CONVERSATION_MESSAGES <
          (h ++ [({ role := role, content := c } : ConversationMessage)]).length := by
        simpa using hc2
      have hlen1 : (addToConversationHistory h role c).length = h.length + 1 := by
        simp only [addToConversationHistory, if_neg hcond]
        simp
      rw [hlen1]; omega
  · by_cases hcond : MAX_CONVERSATION_MESSAGES <
        (h ++ [({ role := role, content := c } : ConversationMessage)]).length
    · simp only [addToConversationHistory, if_pos hcond]
      exact List.drop_suffix _ _
    · simp only [addToConversationHistory, if_neg hcond]
      exact List.suffix_refl _

/-- C5 witness: a concrete 100-message history; appending the 101st
message keeps 100 entries whose first element is the old second entry. -/
theorem history_cap_witness :
    (addToConversationHistory
      (⟨.user, "first"⟩ :: List.replicate 99 ⟨.assistant, "rest"⟩) .user "newest").length =
        MAX_CONVERSATION_MESSAGES ∧
    (addToConversationHistory
      (⟨.user, "first"⟩ :: List.replicate 99 ⟨.assistant, "rest"⟩) .user "newest").head? =
        some ⟨.assistant, "rest"⟩ := by
  have h := (history_cap (⟨.user, "first"⟩ :: List.replicate 99 ⟨.assistant, "rest"⟩)
    .user "newest").1 (by simp [MAX_CONVERSATION_MESSAGES])
  exact ⟨h.2.1, by rw [h.2.2]; simp [List.replicate]⟩

/-- C8 counterexample: a whitespace-only fragment does NOT reset the
silence timer — `handleTranscript` returns before touching the timers, so
the session (including its pending-timer field) is entirely unchanged and
the deadline is not `now + 1800`. -/
theorem silence_timer_blank_counterexample :
    handleTranscript SessionState.initial 5 " " false = SessionState.initial ∧
    (handleTranscript SessionState.initial 5 " " false).silenceDeadline ≠ some (5 + 1800) := by
  exact ⟨by decide, by decide⟩

/-- C8 amended: every fragment whose text is non-blank after trimming —
final or not, with any other content — re-arms the silence timer to fire
1800 ms (1.8 s) after its arrival; blank fragments are dropped before the
timer logic runs. -/
theorem silence_timer_reset (s : SessionState) (now : Nat)
    (txt : String) (isFinal : Bool) (h : jsTrim txt ≠ "") :
    (handleTranscript s now txt isFinal).silenceDeadline = some (now + 1800) := by
  simp [handleTranscript, h]

/-- C8 witness: an interim fragment arms the timer for `now + 1800`. -/
theorem silence_timer_reset_witness :
    (handleTranscript SessionState.initial 40 "hello" false).silenceDeadline = some (40 + 1800) :=
  silence_timer_reset SessionState.initial 40 "hello" false (by decide)

/-- The core induction for the per-gap property: from a state holding one
pending, already-trimmed, non-blank fragment `txt` in its buffer with the
silence timer armed at `t + 1800`, and all remaining fragments arriving
with ≥ 1800 ms gaps, the driver dispatches exactly `txt` followed by each
remaining fragment, in order. -/
lemma runFragments_pending (frags : List (Nat × String)) :
    ∀ (hist : List ConversationMessage) (tts disp : List String) (t : Nat) (txt : String),
      jsTrim txt = txt → txt ≠ "" →
      (∀ p ∈ frags, jsTrim p.2 = p.2 ∧ p.2 ≠ "") →
      List.Chain' (fun a b => a.1 + 1800 ≤ b.1) ((t, txt) :: frags) →
      (runFragments ⟨hist, txt, false, some (t + 1800), none, tts, disp⟩ frags).dispatched
        = disp ++ txt :: frags.map Prod.snd := by
  induction frags with
  | nil =>
    intro hist tts disp t txt htrim hne _ _
    simp [runFragments, sessionRun, sessionStep, fireSilenceTimer, htrim, hne]
  | cons p rest ih =>
    obtain ⟨t2, txt2⟩ := p
    intro hist tts disp t txt htrim hne htxts hchain
    have hgap : t + 1800 ≤ t2 := (List.chain'_cons.mp hchain).1
    have hchain2 : List.Chain' (fun a b => a.1 + 1800 ≤ b.1) ((t2, txt2) :: rest) :=
      (List.chain'_cons.mp hchain).2
    have htxt2 : jsTrim txt2 = txt2 ∧ txt2 ≠ "" := htxts (t2, txt2) (by simp)
    have hfire :
        sessionRun (⟨hist, txt, false, some (t + 1800), none, tts, disp⟩ : SessionState)
          [.silenceFire, .llmDone] =
        ⟨addToConversationHistory
            (addToConversationHistory hist .user txt) .assistant (cleanResponse ""),
          "", false, none, none, tts, disp ++ [txt]⟩ := by
      simp [sessionRun, sessionStep, fireSilenceTimer, htrim, hne]
    have hnext :
        handleTranscript
          (⟨addToConversationHistory
              (addToConversationHistory hist .user txt) .assistant (cleanResponse ""),
            "", false, none, none, tts, disp ++ [txt]⟩ : SessionState) t2 txt2 true =
        ⟨addToConversationHistory
            (addToConversationHistory hist .user txt) .assistant (cleanResponse ""),
          txt2, false, some (t2 + 1800), none, tts, disp ++ [txt]⟩ := by
      have : jsTrim txt2 ≠ "" := by rw [htxt2.1]; exact htxt2.2
      simp [handleTranscript, this]
    rw [show runFragments (⟨hist, txt, false, some (t + 1800), none, tts, disp⟩ : SessionState)
        ((t2, txt2) :: rest) =
        runFragments (handleTranscript
          (sessionRun (⟨hist, txt, false, some (t + 1800), none, tts, disp⟩ : SessionState)
            [.silenceFire, .llmDone]) t2 txt2 true) rest by
      simp [runFragments, hgap]]
    rw [hfire, hnext]
    rw [ih _ tts (disp ++ [txt]) t2 txt2 htxt2.1 htxt2.2
      (fun q hq => htxts q (by simp [hq])) hchain2]
    simp

/-- C4 counterexample: a single whitespace-only final fragment, followed
by a silence gap, produces NO utterance (the claim requires exactly one
per gap): `handleTranscript` discards the blank fragment before the timer
or the buffer is touched, so nothing is ever dispatched. -/
theorem segmenter_blank_counterexample :
    (runFragments SessionState.initial [(0, " ")]).dispatched = [] ∧
    (runFragments SessionState.initial [(0, " ")]).dispatched.length ≠ 1 := by
  exact ⟨by decide, by decide⟩

/-- C4 amended: for every sequence of final fragments that are non-blank
and carry no leading/trailing whitespace, with consecutive arrivals (and
the trailing silence) separated by at least the 1800 ms silence timeout
and each dispatched reply completing before the next fragment, the
segmenter emits exactly one utterance per gap, equal to that gap's
fragment (the trimmed accumulation buffer; with ≥-timeout gaps each
buffer holds exactly one fragment). Whitespace-only fragments are
discarded and produce no utterance, and non-final fragments are never
accumulated into the buffer. -/
theorem segmenter_one_utterance_per_gap (frags : List (Nat × String))
    (hgap : List.Chain' (fun a b => a.1 + 1800 ≤ b.1) frags)
    (htxt : ∀ p ∈ frags, jsTrim p.2 = p.2 ∧ p.2 ≠ "") :
    (runFragments SessionState.initial frags).dispatched = frags.map Prod.snd ∧
    (∀ (s : SessionState) (now : Nat) (txt : String),
      (handleTranscript s now txt false).currentTranscript = s.currentTranscript) := by
  constructor
  · cases frags with
    | nil => decide
    | cons p rest =>
      obtain ⟨t, txt⟩ := p
      have htxt1 : jsTrim txt = txt ∧ txt ≠ "" := htxt (t, txt) (by simp)
      have hne' : jsTrim txt ≠ "" := by rw [htxt1.1]; exact htxt1.2
      have hstep : runFragments SessionState.initial ((t, txt) :: rest) =
          runFragments (handleTranscript SessionState.initial t txt true) rest := by
        simp [runFragments, SessionState.initial]
      have hht : handleTranscript SessionState.initial t txt true =
          ⟨[], txt, false, some (t + 1800), none, [], []⟩ := by
        simp [handleTranscript, hne', SessionState.initial]
      rw [hstep, hht,
        runFragments_pending rest [] [] [] t txt htxt1.1 htxt1.2
          (fun q hq => htxt q (by simp [hq])) hgap]
      simp
  · intro s now txt
    by_cases hb : jsTrim txt = ""
    · simp [handleTranscript, hb]
    · simp [handleTranscript, hb]

/-- C4 witness: two trimmed fragments 2 s apart produce exactly the two
corresponding utterances, in order. -/
theorem segmenter_one_utterance_per_gap_witness :
    (runFragments SessionState.initial [(0, "hi"), (2000, "it broke")]).dispatched =
      ["hi", "it broke"] := by
  have h := (segmenter_one_utterance_per_gap [(0, "hi"), (2000, "it broke")]
    (by simp) (by decide)).1
  simpa using h

/-- C1 counterexample: a fragment arriving while a Pipeline Run is active
triggers no cancellation — no cancellation token exists. In this concrete
trace the run is mid-stream (one token forwarded) when a new final
fragment arrives; the run stays in flight, afterwards a further token is
still forwarded to the synthesis/transport path, the run completes
normally, and its full reply "Hi there" IS appended to the conversation
history, contradicting every part of the claimed barge-in behaviour. -/
theorem barge_in_counterexample :
    (sessionRun SessionState.initial
      [.transcript 0 "hello" true, .silenceFire, .llmToken "Hi"]).isProcessing = true ∧
    (sessionRun SessionState.initial
      [.transcript 0 "hello" true, .silenceFire, .llmToken "Hi",
       .transcript 2000 "wait" true]).isProcessing = true ∧
    (sessionRun SessionState.initial
      [.transcript 0 "hello" true, .silenceFire, .llmToken "Hi",
       .transcript 2000 "wait" true]).activeResponse = some "Hi" ∧
    (sessionRun SessionState.initial
      [.transcript 0 "hello" true, .silenceFire, .llmToken "Hi",
       .transcript 2000 "wait" true, .llmToken " there", .llmDone]).ttsOutput =
      ["Hi", " there"] ∧
    (sessionRun SessionState.initial
      [.transcript 0 "hello" true, .silenceFire, .llmToken "Hi",
       .transcript 2000 "wait" true, .llmToken " there", .llmDone]).conversationHistory =
      [⟨.user, "hello"⟩, ⟨.assistant, "Hi there"⟩] := by
  refine ⟨by decide, by decide, by decide, by decide, by decide⟩

/-- C1 amended: the session has no cancellation mechanism. A fragment
arriving while a Pipeline Run is active (processing flag set) leaves the
run untouched — the processing flag stays set, the in-flight reply,
history, synthesis output and dispatch log are unchanged; the fragment
only re-arms the silence timer and (if final) accumulates into the
buffer. A silence-timer expiry during an active run dispatches nothing.
The active run keeps forwarding its tokens and, on completion, its
cleaned reply IS appended to the conversation history as the assistant
turn. -/
theorem barge_in_no_cancellation :
    (∀ (s : SessionState) (now : Nat) (txt : String) (isFinal : Bool),
      s.isProcessing = true →
      (handleTranscript s now txt isFinal).isProcessing = true ∧
      (handleTranscript s now txt isFinal).activeResponse = s.activeResponse ∧
      (handleTranscript s now txt isFinal).conversationHistory = s.conversationHistory ∧
      (handleTranscript s now txt isFinal).ttsOutput = s.ttsOutput ∧
      (handleTranscript s now txt isFinal).dispatched = s.dispatched) ∧
    (∀ s : SessionState, s.isProcessing = true →
      (fireSilenceTimer s).dispatched = s.dispatched ∧
      (fireSilenceTimer s).isProcessing = true ∧
      (fireSilenceTimer s).activeResponse = s.activeResponse) ∧
    (∀ (s : SessionState) (r : String), s.activeResponse = some r →
      (sessionStep s .llmDone).conversationHistory =
        addToConversationHistory s.conversationHistory .assistant (cleanResponse r) ∧
      (sessionStep s .llmDone).isProcessing = false) := by
  refine ⟨?_, ?_, ?_⟩
  · intro s now txt isFinal hproc
    by_cases hb : jsTrim txt = ""
    · simp [handleTranscript, hb, hproc]
    · simp [handleTranscript, hb, hproc]
  · intro s hproc
    cases hdl : s.silenceDeadline with
    | none => simp [fireSilenceTimer, hdl, hproc]
    | some d => simp [fireSilenceTimer, hdl, hproc]
  · intro s r hact
    simp [sessionStep, hact]

/-- C1 amended-claim witness: concrete mid-run state (processing, reply
"Hi" in flight) hit by a new fragment; the run state is untouched, and
completing the run appends "Hi" to history. -/
theorem barge_in_no_cancellation_witness :
    (handleTranscript
      (⟨[⟨.user, "hello"⟩], "", true, none, some "Hi", ["Hi"], ["hello"]⟩ : SessionState)
      2000 "wait" true).isProcessing = true ∧
    (sessionStep
      (⟨[⟨.user, "hello"⟩], "", true, none, some "Hi", ["Hi"], ["hello"]⟩ : SessionState)
      .llmDone).conversationHistory =
        addToConversationHistory [⟨.user, "hello"⟩] .assistant (cleanResponse "Hi") :=
  ⟨(barge_in_no_cancellation.1
      ⟨[⟨.user, "hello"⟩], "", true, none, some "Hi", ["Hi"], ["hello"]⟩
      2000 "wait" true rfl).1,
   (barge_in_no_cancellation.2.2
      ⟨[⟨.user, "hello"⟩], "", true, none, some "Hi", ["Hi"], ["hello"]⟩
      "Hi" rfl).1⟩

/-- Closed-form effect of one `handleEndSession` call. -/
lemma handleEndSession_eq (ctx : EndContext) (res : EndResources) (eff : EndEffects) :
    handleEndSession ctx res eff =
      ({ deepgramOpen := res.deepgramOpen && !ctx.hasAudio
         ttsOpen := res.ttsOpen && !ctx.hasAudio
         autoEndTimerPending := res.autoEndTimerPending
         silenceTimerPending := false
         durationTimersPending := false },
       { unverifiedRequestsCreated :=
           eff.unverifiedRequestsCreated + (if unverifiedRequestGuard ctx then 1 else 0)
         postCallSmsSent := eff.postCallSmsSent + (if postCallSmsGuard ctx then 1 else 0)
         recordingEndUpdates := eff.recordingEndUpdates + (if ctx.hasCallRecord then 1 else 0)
         costTrackings := eff.costTrackings + 1 + (if ctx.hasAudio then 2 else 0)
         deepgramCloses := eff.deepgramCloses + (if ctx.hasAudio && res.deepgramOpen then 1 else 0)
         ttsCloses := eff.ttsCloses + (if ctx.hasAudio && res.ttsOpen then 1 else 0) }) := by
  obtain ⟨dg, tts, aet, st, dt⟩ := res
  by_cases h1 : unverifiedRequestGuard ctx <;>
  by_cases h2 : postCallSmsGuard ctx <;>
  by_cases h3 : ctx.hasCallRecord <;>
  by_cases h4 : ctx.hasAudio <;>
  cases dg <;> cases tts <;>
    simp_all [handleEndSession]

/-- C7 counterexample: `end()` is not idempotent. For a concrete
unverified session with three history turns, a media-helpful issue, live
audio and a call record, a second `end()` creates a second unverified
request, sends the post-call SMS again, re-runs the recording end update
and doubles the tracked costs, so the cumulative side effects after two
calls differ from those after one. -/
theorem end_not_idempotent_counterexample :
    (endSession ⟨.UNVERIFIED, false, 3, true, true, true, true, true, true⟩
      (endSession ⟨.UNVERIFIED, false, 3, true, true, true, true, true, true⟩
        ⟨true, true, true, true, true⟩ ⟨0, 0, 0, 0, 0, 0⟩).1
      (endSession ⟨.UNVERIFIED, false, 3, true, true, true, true, true, true⟩
        ⟨true, true, true, true, true⟩ ⟨0, 0, 0, 0, 0, 0⟩).2).2 =
      ⟨2, 2, 2, 6, 1, 1⟩ ∧
    (endSession ⟨.UNVERIFIED, false, 3, true, true, true, true, true, true⟩
      ⟨true, true, true, true, true⟩ ⟨0, 0, 0, 0, 0, 0⟩).2 = ⟨1, 1, 1, 3, 1, 1⟩ ∧
    (⟨2, 2, 2, 6, 1, 1⟩ : EndEffects) ≠ ⟨1, 1, 1, 3, 1, 1⟩ := by
  refine ⟨by decide, by decide, by decide⟩

/-- C7 amended: `end()` has no completed/in-flight guard, so a second
call re-runs every end-of-call side effect whose guard still holds — it
creates another unverified request (the `createdUnverifiedRequest` flag is
never set on the end path), re-sends the post-call SMS, re-runs the
recording end update, and tracks the call costs again. Only the audio
resources are released exactly once: `cleanupAudio` nulls the components
the first time, so the second call closes nothing. -/
theorem end_not_idempotent (ctx : EndContext) (res : EndResources) (eff : EndEffects) :
    (endSession ctx (endSession ctx res eff).1 (endSession ctx res eff).2).2.unverifiedRequestsCreated =
      (endSession ctx res eff).2.unverifiedRequestsCreated +
        (if unverifiedRequestGuard ctx then 1 else 0) ∧
    (endSession ctx (endSession ctx res eff).1 (endSession ctx res eff).2).2.postCallSmsSent =
      (endSession ctx res eff).2.postCallSmsSent + (if postCallSmsGuard ctx then 1 else 0) ∧
    (endSession ctx (endSession ctx res eff).1 (endSession ctx res eff).2).2.recordingEndUpdates =
      (endSession ctx res eff).2.recordingEndUpdates + (if ctx.hasCallRecord then 1 else 0) ∧
    (endSession ctx (endSession ctx res eff).1 (endSession ctx res eff).2).2.costTrackings =
      (endSession ctx res eff).2.costTrackings + 1 + (if ctx.hasAudio then 2 else 0) ∧
    (endSession ctx (endSession ctx res eff).1 (endSession ctx res eff).2).2.deepgramCloses =
      (endSession ctx res eff).2.deepgramCloses ∧
    (endSession ctx (endSession ctx res eff).1 (endSession ctx res eff).2).2.ttsCloses =
      (endSession ctx res eff).2.ttsCloses := by
  obtain ⟨dg, tts, aet, st, dt⟩ := res
  simp only [endSession, handleEndSession_eq]
  cases hha : ctx.hasAudio <;> cases dg <;> cases tts <;> simp_all

/-- C7 amended-claim witness: for the concrete unverified session, the
second `end()` sends the post-call SMS one more time. -/
theorem end_not_idempotent_witness :
    (endSession ⟨.UNVERIFIED, false, 3, true, true, true, true, true, true⟩
      (endSession ⟨.UNVERIFIED, false, 3, true, true, true, true, true, true⟩
        ⟨true, true, true, true, true⟩ ⟨0, 0, 0, 0, 0, 0⟩).1
      (endSession ⟨.UNVERIFIED, false, 3, true, true, true, true, true, true⟩
        ⟨true, true, true, true, true⟩ ⟨0, 0, 0, 0, 0, 0⟩).2).2.postCallSmsSent =
    (endSession ⟨.UNVERIFIED, false, 3, true, true, true, true, true, true⟩
      ⟨true, true, true, true, true⟩ ⟨0, 0, 0, 0, 0, 0⟩).2.postCallSmsSent + 1 := by
  have h := (end_not_idempotent ⟨.UNVERIFIED, false, 3, true, true, true, true, true, true⟩
    ⟨true, true, true, true, true⟩ ⟨0, 0, 0, 0, 0, 0⟩).2.1
  simpa using h
